import Mathlib

/-!
Shallow embedding of the model-acquisition manager implemented in
src/offline_voice/model_downloader.py and of the language classifier in
src/offline_voice/vosk_recognizer.py, with theorems settling the spec
claims about them.

The filesystem under the manager's root directory is modelled by the names
of the model directories and of the archive (zip) files it currently
holds.  The network and the archive contents are modelled by oracles
packaged in an environment record: the HTTP layer maps a URL to a
response, the archive layer maps a URL to the extraction outcome of the
archive served at that URL, and the deletion oracle says whether removing
a given zip file succeeds (Path.unlink can raise, e.g. on a permission
error; the spec's cleanup contract explicitly speaks about deletion
errors, so they must be representable).
-/

/-- One entry of the static catalog literal built in
VoskModelDownloader.__init__ (model_downloader.py lines 18-50). -/
structure ModelInfo where
  name : String
  url : String
  size : String
  language : String
  recommended : Bool
deriving DecidableEq

/-- The static catalog self.available_models in Python dict insertion
order (model_downloader.py lines 18-50). -/
def available_models : List (String × ModelInfo) :=
  [("small-hi", ⟨"vosk-model-small-hi-0.22",
      "https://alphacephei.com/vosk/models/vosk-model-small-hi-0.22.zip",
      "45MB", "Hindi (Compact)", true⟩),
   ("small-en", ⟨"vosk-model-small-en-us-0.15",
      "https://alphacephei.com/vosk/models/vosk-model-small-en-us-0.15.zip",
      "40MB", "English (Compact)", true⟩),
   ("hi", ⟨"vosk-model-hi-0.22",
      "https://alphacephei.com/vosk/models/vosk-model-hi-0.22.zip",
      "1.8GB", "Hindi (Full)", false⟩),
   ("en", ⟨"vosk-model-en-us-0.22",
      "https://alphacephei.com/vosk/models/vosk-model-en-us-0.22.zip",
      "1.8GB", "English (Full)", false⟩)]

/-- Catalog lookup, the Python membership test and subscript
self.available_models[model_key] (model_downloader.py lines 75-80). -/
def findModel (model_key : String) : Option ModelInfo :=
  available_models.lookup model_key

/-- The root directory self.models_dir with its default value
(model_downloader.py line 14). -/
def models_dir : String := "models"

/-- The contents of the root directory: names of the model directories
and names of the zip files directly under it.  A real directory holds at
most one entry per name, so removal drops every occurrence of a name. -/
structure FS where
  dirs : List String
  zips : List String
deriving DecidableEq

/-- VoskModelDownloader.is_model_downloaded (model_downloader.py lines
68-71): true iff a directory with exactly that name exists under the
root. -/
def is_model_downloaded (fs : FS) (model_name : String) : Bool :=
  fs.dirs.contains model_name

/-- Outcome of one requests.get call (model_downloader.py line 94):
either the request or raise_for_status raises (connection failure or
non-success HTTP status), or a streamed body arrives with the declared
content-length (0 when the header is absent, line 98), the list of chunk
byte counts delivered by iter_content, and a flag telling whether the
stream raises mid-transfer after those chunks were delivered. -/
inductive HttpResponse where
  | connectionError
  | ok (content_length : Nat) (chunks : List Nat) (midstreamError : Bool)

/-- Environment oracles for one run: the HTTP layer, the archive layer
(what extracting the archive served at a URL yields: none when the bytes
are not a valid zip, some ds when extraction succeeds and creates the
top-level directories ds under the root), and whether unlinking a given
zip file name succeeds. -/
structure Env where
  net : String → HttpResponse
  extract : String → Option (List String)
  unlink_ok : String → Bool

/-- The name of the temporary archive file f-string
f"{model_name}.zip" (model_downloader.py line 92). -/
def archive_zip (model_name : String) : String :=
  model_name ++ ".zip"

/-- Creating the zip file with open(zip_path, "wb")
(model_downloader.py line 102): truncates if present, creates
otherwise. -/
def FS.addZip (fs : FS) (z : String) : FS :=
  if fs.zips.contains z then fs else ⟨fs.dirs, fs.zips ++ [z]⟩

/-- zip_path.unlink() when it succeeds: the name disappears from the
root directory. -/
def FS.removeZip (fs : FS) (z : String) : FS :=
  ⟨fs.dirs, fs.zips.filter (fun n => n ≠ z)⟩

/-- The per-chunk progress values printed by the streaming loop
(model_downloader.py lines 100-109): empty chunks are skipped, the
cumulative count grows by each chunk length, and when the declared
content length is positive the value (downloaded / total_size) * 100 is
emitted after each chunk. -/
def progress_steps (total_size : Nat) : Nat → List Nat → List ℚ
  | _, [] => []
  | downloaded, c :: cs =>
    if c = 0 then progress_steps total_size downloaded cs
    else
      let d := downloaded + c
      if 0 < total_size then
        ((d : ℚ) / (total_size : ℚ)) * 100 :: progress_steps total_size d cs
      else progress_steps total_size d cs

/-- The distinguishable exit points of
VoskModelDownloader.download_model: the two False returns (unknown key,
line 78, and the caught error, line 128, whose printed message carries
the transport or extraction cause), the two True returns (already
present, line 85, and full success, line 121), and the uncaught
exception raised when zip_path.unlink() itself fails inside the except
block (lines 126-127), which escapes the function. -/
inductive DlOutcome where
  | unknownKey
  | alreadyPresent
  | transportError
  | extractionError
  | success
  | cleanupException
deriving DecidableEq

/-- The boolean actually returned by download_model at each returning
exit (True at lines 85 and 121, False at lines 78 and 128);
cleanupException never returns. -/
def DlOutcome.toBool : DlOutcome → Bool
  | .alreadyPresent => true
  | .success => true
  | _ => false

/-- Result of one download_model call: its outcome, the root directory
contents after the call, the number of requests.get calls performed, and
the progress values emitted. -/
structure DlResult where
  outcome : DlOutcome
  fs : FS
  netCalls : Nat
  progress : List ℚ
deriving DecidableEq

/-- VoskModelDownloader.download_model (model_downloader.py lines
73-128) as a state transition.  The zip file is created only after a
successful requests.get/raise_for_status (open at line 102 follows line
95); the except block (lines 123-128) deletes the zip file when it
exists on disk, and an unlink failure there is not caught and so escapes
as cleanupException; on the success path the unlink at line 118 sits
inside the try, so its failure lands in the same except block, whose own
unlink fails again and escapes. -/
def download_model (env : Env) (fs : FS) (model_key : String) : DlResult :=
  match findModel model_key with
  | none => ⟨.unknownKey, fs, 0, []⟩
  | some model =>
    if is_model_downloaded fs model.name then ⟨.alreadyPresent, fs, 0, []⟩
    else
      let zip_name := archive_zip model.name
      match env.net model.url with
      | .connectionError =>
        if fs.zips.contains zip_name then
          if env.unlink_ok zip_name then ⟨.transportError, fs.removeZip zip_name, 1, []⟩
          else ⟨.cleanupException, fs, 1, []⟩
        else ⟨.transportError, fs, 1, []⟩
      | .ok total_size chunks midstreamError =>
        let fs1 := fs.addZip zip_name
        let prog := progress_steps total_size 0 chunks
        if midstreamError then
          if env.unlink_ok zip_name then ⟨.transportError, fs1.removeZip zip_name, 1, prog⟩
          else ⟨.cleanupException, fs1, 1, prog⟩
        else
          match env.extract model.url with
          | none =>
            if env.unlink_ok zip_name then ⟨.extractionError, fs1.removeZip zip_name, 1, prog⟩
            else ⟨.cleanupException, fs1, 1, prog⟩
          | some ds =>
            let fs2 : FS := ⟨fs1.dirs ++ ds, fs1.zips⟩
            if env.unlink_ok zip_name then ⟨.success, fs2.removeZip zip_name, 1, prog⟩
            else ⟨.cleanupException, fs2, 1, prog⟩

/-- VoskModelDownloader.download_recommended (model_downloader.py lines
130-140) threaded over a catalog suffix: the for loop calls
download_model for each recommended entry, folding the returned boolean
into the success flag; an uncaught exception from download_model aborts
the loop (first component none).  The third component logs the attempted
keys with their outcomes in order. -/
def download_recommended_from (env : Env) :
    List (String × ModelInfo) → FS → Bool → Option Bool × FS × List (String × DlOutcome)
  | [], fs, success => (some success, fs, [])
  | (key, model) :: rest, fs, success =>
    if model.recommended then
      let r := download_model env fs key
      if r.outcome = .cleanupException then
        (none, r.fs, [(key, r.outcome)])
      else
        let next := download_recommended_from env rest r.fs (success && r.outcome.toBool)
        (next.1, next.2.1, (key, r.outcome) :: next.2.2)
    else
      download_recommended_from env rest fs success

/-- VoskModelDownloader.download_recommended over the whole catalog with
the success flag initially True (model_downloader.py lines 134-140). -/
def download_recommended (env : Env) (fs : FS) :
    Option Bool × FS × List (String × DlOutcome) :=
  download_recommended_from env available_models fs true

/-- The priority list chosen by the branch at model_downloader.py lines
145-148: the "hi" preference gets the Hindi-first order, every other
preference string falls to the else branch and gets the English-first
order. -/
def priorities (language_preference : String) : List String :=
  if language_preference = "hi" then ["small-hi", "hi", "small-en", "en"]
  else ["small-en", "en", "small-hi", "hi"]

/-- The loop of VoskModelDownloader.get_model_path (model_downloader.py
lines 150-156): walk the priority keys, skip keys absent from the
catalog, and return models_dir / model_name for the first downloaded
one, none when the loop falls through. -/
def get_model_path_from (fs : FS) : List String → Option String
  | [] => none
  | key :: rest =>
    match findModel key with
    | some m =>
      if is_model_downloaded fs m.name then some (models_dir ++ "/" ++ m.name)
      else get_model_path_from fs rest
    | none => get_model_path_from fs rest

/-- VoskModelDownloader.get_model_path (model_downloader.py lines
142-156). -/
def get_model_path (fs : FS) (language_preference : String) : Option String :=
  get_model_path_from fs (priorities language_preference)

/-- VoskModelDownloader.list_models (model_downloader.py lines 52-66)
as the sequence of entries it prints: one (key, descriptor, downloaded
flag) triple per catalog item, in catalog order. -/
def list_models (fs : FS) : List (String × ModelInfo × Bool) :=
  available_models.map (fun p => (p.1, p.2, is_model_downloaded fs p.2.name))

/-- The member-name sanitization CPython's zipfile.ZipFile.extractall
applies to every archive entry before writing it (zipfile._extract_member,
invoked by the extractall call at model_downloader.py line 115): the name
is split at the path separator and the empty, "." and ".." components
are discarded (os.path.splitdrive is the identity on POSIX paths). -/
def sanitized_parts (arcname : String) : List String :=
  (arcname.splitOn "/").filter (fun p => !(p = "" || p = "." || p = ".."))

/-- The target path extractall writes an archive entry to, as its list
of path components: os.path.join of the root directory and the sanitized
member name. -/
def extract_target (root : List String) (arcname : String) : List String :=
  root ++ sanitized_parts arcname

/-- A path (as components) lies at or below root: it extends root by
components none of which is empty, "." or "..", so path normalization
cannot move it above root. -/
def is_descendant (root p : List String) : Prop :=
  ∃ rest, p = root ++ rest ∧ ∀ s ∈ rest, s ≠ "" ∧ s ≠ "." ∧ s ≠ ".."

/-- VoskOfflineRecognizer.detect_language (vosk_recognizer.py lines
152-175).  The Unicode classifier str.isalpha of the Python runtime is
passed in as an opaque predicate; every theorem below holds for each
choice of it.  str.isascii is exactly the code-point bound 127, and the
two script tests are the literal code-point ranges of the source.  The
ratio comparisons divide only under the total_chars == 0 guard, mirrored
here by the if around them, and the float literals 0.3 and 0.7 are the
exact rationals 3/10 and 7/10.  The Lean function is total by
construction. -/
def detect_language (isalpha : Char → Bool) (text : String) : String :=
  if text = "" then "unknown"
  else
    let odia_chars := (text.data.filter (fun c => 0x0B00 ≤ c.toNat && c.toNat ≤ 0x0B7F)).length
    let hindi_chars := (text.data.filter (fun c => 0x0900 ≤ c.toNat && c.toNat ≤ 0x097F)).length
    let english_chars := (text.data.filter (fun c => c.toNat ≤ 127 && isalpha c)).length
    let total_chars := (text.data.filter (fun c => isalpha c)).length
    if total_chars = 0 then "unknown"
    else if (3 : ℚ) / 10 < (odia_chars : ℚ) / (total_chars : ℚ) then "or"
    else if (3 : ℚ) / 10 < (hindi_chars : ℚ) / (total_chars : ℚ) then "hi"
    else if (7 : ℚ) / 10 < (english_chars : ℚ) / (total_chars : ℚ) then "en"
    else "mixed"

/-! ## Helper lemmas -/

@[simp]
lemma FS.addZip_dirs (fs : FS) (z : String) : (fs.addZip z).dirs = fs.dirs := by
  unfold FS.addZip
  split <;> rfl

@[simp]
lemma FS.removeZip_dirs (fs : FS) (z : String) : (fs.removeZip z).dirs = fs.dirs := rfl

/-- A successful download_model call performed a successful extraction,
and the new root contents are the old directories extended by the
extracted top-level directories. -/
lemma download_model_success_dirs (env : Env) (fs : FS) (model_key : String)
    (m : ModelInfo) (hm : findModel model_key = some m)
    (hs : (download_model env fs model_key).outcome = .success) :
    ∃ ds, env.extract m.url = some ds ∧
      (download_model env fs model_key).fs.dirs = fs.dirs ++ ds := by
  unfold download_model at hs ⊢
  rw [hm] at hs ⊢
  by_cases hd : is_model_downloaded fs m.name
  · simp [hd] at hs
  · simp only [hd, Bool.false_eq_true, if_false] at hs ⊢
    cases hnet : env.net m.url with
    | connectionError =>
      rw [hnet] at hs
      by_cases hz : archive_zip m.name ∈ fs.zips
      · by_cases hu : env.unlink_ok (archive_zip m.name) = true
        · simp [hz, hu] at hs
        · simp [hz, hu] at hs
      · simp [hz] at hs
    | ok t cs mid =>
      rw [hnet] at hs
      cases mid with
      | true =>
        simp at hs
        split at hs <;> simp_all
      | false =>
        cases hext : env.extract m.url with
        | none =>
          rw [hext] at hs
          simp at hs
          split at hs <;> simp_all
        | some ds =>
          rw [hext] at hs
          simp only [Bool.false_eq_true, if_false] at hs ⊢
          by_cases hu : env.unlink_ok (archive_zip m.name)
          · refine ⟨ds, rfl, ?_⟩
            simp [hu]
          · simp [hu] at hs

/-! ## The claims -/

/-- A benign environment used by witnesses: every request streams an
empty body successfully, every archive extracts to the single top-level
directory of the compact Hindi model, and deletions succeed. -/
def env_ok : Env :=
  ⟨fun _ => .ok 0 [] false, fun _ => some ["vosk-model-small-hi-0.22"], fun _ => true⟩

/-- C3: for a key absent from the catalog, download_model returns the
unknown-key failure and performs no side effects: the root directory is
unchanged, no network request is made, and nothing is emitted. -/
theorem c3_unknown_key_no_side_effects (env : Env) (fs : FS) (model_key : String)
    (h : findModel model_key = none) :
    download_model env fs model_key = ⟨.unknownKey, fs, 0, []⟩ := by
  unfold download_model
  rw [h]

theorem c3_witness :
    findModel "bogus" = none ∧
    download_model env_ok ⟨[], []⟩ "bogus" = ⟨.unknownKey, ⟨[], []⟩, 0, []⟩ :=
  ⟨by decide, c3_unknown_key_no_side_effects env_ok ⟨[], []⟩ "bogus" (by decide)⟩

/-- C2: whenever the resolved archive name is already downloaded,
download_model succeeds immediately as already-present with no network
request and no other effect; consequently, when a first call succeeds
(and the archive it extracted contains the expected top-level directory,
as the spec assumes of the served archives), a second call in sequence
returns already-present with no network request. -/
theorem c2_second_call_already_present :
    (∀ (env : Env) (fs : FS) (model_key : String) (m : ModelInfo),
      findModel model_key = some m → is_model_downloaded fs m.name = true →
      download_model env fs model_key = ⟨.alreadyPresent, fs, 0, []⟩) ∧
    (∀ (env : Env) (fs : FS) (model_key : String) (m : ModelInfo),
      findModel model_key = some m →
      (∀ ds, env.extract m.url = some ds → m.name ∈ ds) →
      (download_model env fs model_key).outcome = .success →
      download_model env (download_model env fs model_key).fs model_key =
        ⟨.alreadyPresent, (download_model env fs model_key).fs, 0, []⟩) := by
  have ha : ∀ (env : Env) (fs : FS) (model_key : String) (m : ModelInfo),
      findModel model_key = some m → is_model_downloaded fs m.name = true →
      download_model env fs model_key = ⟨.alreadyPresent, fs, 0, []⟩ := by
    intro env fs key m hm hd
    unfold download_model
    rw [hm]
    simp [hd]
  refine ⟨ha, ?_⟩
  intro env fs key m hm hext hs
  obtain ⟨ds, hds, hdirs⟩ := download_model_success_dirs env fs key m hm hs
  have hname : m.name ∈ ds := hext ds hds
  have hdl : is_model_downloaded (download_model env fs key).fs m.name = true := by
    have : m.name ∈ (download_model env fs key).fs.dirs := by
      rw [hdirs]
      exact List.mem_append_right _ hname
    simpa [is_model_downloaded] using this
  exact ha env (download_model env fs key).fs key m hm hdl

theorem c2_witness :
    download_model env_ok (download_model env_ok ⟨[], []⟩ "small-hi").fs "small-hi" =
      ⟨.alreadyPresent, (download_model env_ok ⟨[], []⟩ "small-hi").fs, 0, []⟩ :=
  c2_second_call_already_present.2 env_ok ⟨[], []⟩ "small-hi"
    ⟨"vosk-model-small-hi-0.22",
      "https://alphacephei.com/vosk/models/vosk-model-small-hi-0.22.zip",
      "45MB", "Hindi (Compact)", true⟩
    (by decide)
    (by
      intro ds h
      have hds : ds = ["vosk-model-small-hi-0.22"] := by
        have h' : some ["vosk-model-small-hi-0.22"] = some ds := h
        exact (Option.some.inj h').symm
      rw [hds]
      exact List.mem_singleton.2 rfl)
    (by decide)

/-- C8: list_models produces exactly one entry per catalog item, in
catalog declaration order whatever the on-disk state, each annotated
with the current presence of its archive directory; it is a pure read of
the state. -/
theorem c8_list_catalog_order (fs : FS) :
    (list_models fs).map (fun e => (e.1, e.2.1)) = available_models ∧
    ∀ e ∈ list_models fs, e.2.2 = is_model_downloaded fs e.2.1.name := by
  constructor
  · rfl
  · intro e he
    unfold list_models at he
    obtain ⟨p, hp, rfl⟩ := List.mem_map.1 he
    rfl

theorem c8_witness :
    (list_models ⟨["vosk-model-small-hi-0.22"], []⟩).map (fun e => (e.1, e.2.1)) =
      available_models ∧
    (("small-hi",
       (⟨"vosk-model-small-hi-0.22",
          "https://alphacephei.com/vosk/models/vosk-model-small-hi-0.22.zip",
          "45MB", "Hindi (Compact)", true⟩ : ModelInfo), true) :
       String × ModelInfo × Bool).2.2 =
      is_model_downloaded ⟨["vosk-model-small-hi-0.22"], []⟩ "vosk-model-small-hi-0.22" :=
  ⟨(c8_list_catalog_order ⟨["vosk-model-small-hi-0.22"], []⟩).1,
   (c8_list_catalog_order ⟨["vosk-model-small-hi-0.22"], []⟩).2 _ (by decide)⟩

/-- C9: every language preference other than the exact string "hi" --
"en", "or", or any other token -- falls to the same else branch and uses
the one English-first priority order, so an Odia request resolves
exactly as an English request does; there is no Odia branch or alias. -/
theorem c9_non_hindi_single_order (pref : String) (h : pref ≠ "hi") :
    priorities pref = ["small-en", "en", "small-hi", "hi"] ∧
    ∀ fs : FS, get_model_path fs pref = get_model_path fs "en" := by
  have h1 : priorities pref = ["small-en", "en", "small-hi", "hi"] := by
    unfold priorities
    rw [if_neg h]
  refine ⟨h1, ?_⟩
  intro fs
  have h2 : priorities "en" = ["small-en", "en", "small-hi", "hi"] := by
    unfold priorities
    rw [if_neg (by decide : ¬("en" = "hi"))]
  unfold get_model_path
  rw [h1, h2]

theorem c9_witness :
    priorities "or" = ["small-en", "en", "small-hi", "hi"] ∧
    get_model_path ⟨[], []⟩ "or" = get_model_path ⟨[], []⟩ "en" :=
  ⟨(c9_non_hindi_single_order "or" (by decide)).1,
   (c9_non_hindi_single_order "or" (by decide)).2 ⟨[], []⟩⟩

/-- C6: the sanitization applied to every archive member name removes
parent-directory traversal segments, and every path extraction writes is
a descendant of the root directory, whatever entry names the remote
archive supplies. -/
theorem c6_extraction_stays_under_root (root : List String) (arcname : String) :
    ".." ∉ sanitized_parts arcname ∧
    is_descendant root (extract_target root arcname) := by
  constructor
  · intro h
    have hp := List.of_mem_filter h
    simp at hp
  · refine ⟨sanitized_parts arcname, rfl, ?_⟩
    intro s hs
    have hp := List.of_mem_filter hs
    simp only [Bool.not_eq_true', Bool.or_eq_false_iff, decide_eq_false_iff_not] at hp
    exact ⟨hp.1.1, hp.1.2, hp.2⟩

theorem c6_witness :
    ".." ∉ sanitized_parts "../../etc/passwd" ∧
    is_descendant ["models"] (extract_target ["models"] "../../etc/passwd") :=
  c6_extraction_stays_under_root ["models"] "../../etc/passwd"

/-- C10: detect_language is total (it is a Lean function), it returns
one of the five tokens for every input and every alphabetic classifier,
and on inputs with no alphabetic character -- the empty string included
-- it returns "unknown", the guard firing before any ratio is formed, so
no division by zero is ever performed. -/
theorem c10_detect_language_total_guarded (isalpha : Char → Bool) (text : String) :
    detect_language isalpha text ∈ ["unknown", "or", "hi", "en", "mixed"] ∧
    ((∀ c ∈ text.data, isalpha c = false) →
      detect_language isalpha text = "unknown") := by
  constructor
  · simp only [detect_language]
    split_ifs <;> simp
  · intro h
    have hfil : text.data.filter (fun c => isalpha c) = [] := by
      rw [List.filter_eq_nil_iff]
      intro c hc
      simp [h c hc]
    unfold detect_language
    split
    · rfl
    · simp [hfil]

theorem c10_witness :
    detect_language Char.isAlpha "123" ∈ ["unknown", "or", "hi", "en", "mixed"] ∧
    detect_language Char.isAlpha "123" = "unknown" :=
  ⟨(c10_detect_language_total_guarded Char.isAlpha "123").1,
   (c10_detect_language_total_guarded Char.isAlpha "123").2 (by decide)⟩

/-- Membership in the zip list after a successful unlink. -/
@[simp]
lemma FS.not_mem_removeZip (fs : FS) (z : String) : z ∉ (fs.removeZip z).zips := by
  simp [FS.removeZip]

/-- An environment where the server streams an empty body, the bytes are
not a valid archive, and deleting the temporary file fails. -/
def env_unlink_fails : Env :=
  ⟨fun _ => .ok 0 [] false, fun _ => none, fun _ => false⟩

/-- An environment identical to env_unlink_fails except that deletion
succeeds. -/
def env_extract_bad : Env :=
  ⟨fun _ => .ok 0 [] false, fun _ => none, fun _ => true⟩

/-- C1 counterexample: with an invalid archive and a failing deletion,
download_model on "small-hi" fails after the temporary file was created
(the outcome is neither success nor already-present nor unknown-key: it
is the uncaught deletion exception, which overrides the extraction
error) and the temporary archive file is still present under the root
when the call ends -- so deletion errors are not swallowed and a
residual temporary file can remain. -/
theorem c1_counterexample :
    (download_model env_unlink_fails ⟨[], []⟩ "small-hi").outcome ≠ .success ∧
    (download_model env_unlink_fails ⟨[], []⟩ "small-hi").outcome ≠ .alreadyPresent ∧
    (download_model env_unlink_fails ⟨[], []⟩ "small-hi").outcome ≠ .unknownKey ∧
    (download_model env_unlink_fails ⟨[], []⟩ "small-hi").outcome = .cleanupException ∧
    archive_zip "vosk-model-small-hi-0.22" ∈
      (download_model env_unlink_fails ⟨[], []⟩ "small-hi").fs.zips := by
  decide

/-- C1 (amended): when deleting the temporary archive file succeeds,
every download_model call that returns a transport or extraction error
has deleted the temporary file before returning, and no residual
temporary archive file for that model remains under the root; when the
deletion itself fails, the deletion error propagates out of the call
(cleanupException), overriding the primary error, instead of being
swallowed. -/
theorem c1_cleanup_no_residual_temp (env : Env) (fs : FS) (model_key : String)
    (m : ModelInfo) (hm : findModel model_key = some m)
    (hu : env.unlink_ok (archive_zip m.name) = true)
    (he : (download_model env fs model_key).outcome = .transportError ∨
          (download_model env fs model_key).outcome = .extractionError) :
    archive_zip m.name ∉ (download_model env fs model_key).fs.zips := by
  unfold download_model at he ⊢
  rw [hm] at he ⊢
  by_cases hd : is_model_downloaded fs m.name
  · simp [hd] at he
  · simp only [hd, Bool.false_eq_true, if_false] at he ⊢
    cases hnet : env.net m.url with
    | connectionError =>
      by_cases hz : archive_zip m.name ∈ fs.zips
      · simp [hz, hu]
      · simp [hz, hu]
    | ok t cs mid =>
      rw [hnet] at he
      cases mid with
      | true => simp [hu]
      | false =>
        simp only [Bool.false_eq_true, if_false] at he ⊢
        cases hext : env.extract m.url with
        | none => simp [hu]
        | some ds =>
          rw [hext] at he
          simp [hu] at he

theorem c1_witness :
    archive_zip "vosk-model-small-hi-0.22" ∉
      (download_model env_extract_bad ⟨[], []⟩ "small-hi").fs.zips :=
  c1_cleanup_no_residual_temp env_extract_bad ⟨[], []⟩ "small-hi"
    ⟨"vosk-model-small-hi-0.22",
      "https://alphacephei.com/vosk/models/vosk-model-small-hi-0.22.zip",
      "45MB", "Hindi (Compact)", true⟩
    (by decide) rfl (Or.inr (by decide))

/-- Under an everywhere-successful deletion oracle, download_model never
escapes with the uncaught deletion exception. -/
lemma download_model_no_exception (env : Env) (fs : FS) (model_key : String)
    (hu : ∀ z, env.unlink_ok z = true) :
    (download_model env fs model_key).outcome ≠ .cleanupException := by
  unfold download_model
  cases hfm : findModel model_key with
  | none => simp
  | some m =>
    by_cases hd : is_model_downloaded fs m.name
    · simp [hd]
    · simp only [hd, Bool.false_eq_true, if_false]
      cases hnet : env.net m.url with
      | connectionError =>
        by_cases hz : archive_zip m.name ∈ fs.zips <;> simp [hz, hu]
      | ok t cs mid =>
        cases mid with
        | true => simp [hu]
        | false => cases hext : env.extract m.url <;> simp [hu]

/-- The outcomes download_recommended counts as individual success are
exactly the already-present and the fresh-success exits. -/
lemma DlOutcome.toBool_eq_true (o : DlOutcome) :
    o.toBool = true ↔ o = .alreadyPresent ∨ o = .success := by
  cases o <;> simp [DlOutcome.toBool]

/-- The loop of download_recommended over any catalog suffix, under an
everywhere-successful deletion oracle: it attempts exactly the
recommended entries in order, and the aggregate flag is the accumulator
conjoined with the individual booleans of all attempted entries. -/
lemma download_recommended_from_spec (env : Env) (hu : ∀ z, env.unlink_ok z = true) :
    ∀ (L : List (String × ModelInfo)) (fs : FS) (acc : Bool),
      (download_recommended_from env L fs acc).2.2.map Prod.fst =
        (L.filter (fun p => p.2.recommended)).map Prod.fst ∧
      (download_recommended_from env L fs acc).1 =
        some (acc && (download_recommended_from env L fs acc).2.2.all
          (fun p => p.2.toBool)) := by
  intro L
  induction L with
  | nil =>
    intro fs acc
    simp [download_recommended_from]
  | cons p rest ih =>
    intro fs acc
    obtain ⟨key, model⟩ := p
    by_cases hr : model.recommended
    · have hne := download_model_no_exception env fs key hu
      simp only [download_recommended_from, hr, if_true, if_neg hne]
      constructor
      · simp [List.filter_cons, hr, (ih _ _).1]
      · rw [(ih _ _).2]
        simp [Bool.and_assoc]
    · simp only [download_recommended_from, hr, Bool.false_eq_true, if_false]
      constructor
      · simp [List.filter_cons, hr, (ih _ _).1]
      · exact (ih _ _).2

/-- C4 (amended): provided every temporary-file deletion succeeds (so no
deletion exception aborts the loop), download_recommended attempts
exactly the recommended catalog entries -- "small-hi" then "small-en",
in declaration order -- never stopping on a returned failure, and its
aggregate flag is true exactly when every attempted entry ended
already-present or successful. -/
theorem c4_recommended_batch (env : Env) (fs : FS)
    (hu : ∀ z, env.unlink_ok z = true) :
    (download_recommended env fs).2.2.map Prod.fst =
      (available_models.filter (fun p => p.2.recommended)).map Prod.fst ∧
    (available_models.filter (fun p => p.2.recommended)).map Prod.fst =
      ["small-hi", "small-en"] ∧
    (download_recommended env fs).1 =
      some ((download_recommended env fs).2.2.all (fun p => p.2.toBool)) ∧
    ((download_recommended env fs).1 = some true ↔
      ∀ p ∈ (download_recommended env fs).2.2,
        p.2 = .alreadyPresent ∨ p.2 = .success) := by
  obtain ⟨h1, h2⟩ := download_recommended_from_spec env hu available_models fs true
  have h3 : (download_recommended env fs).1 =
      some ((download_recommended env fs).2.2.all (fun p => p.2.toBool)) := by
    simpa [download_recommended] using h2
  refine ⟨h1, by decide, h3, ?_⟩
  rw [h3]
  simp only [Option.some.injEq]
  rw [List.all_eq_true]
  constructor
  · intro hall p hp
    exact (DlOutcome.toBool_eq_true p.2).1 (hall p hp)
  · intro hall p hp
    exact (DlOutcome.toBool_eq_true p.2).2 (hall p hp)

theorem c4_witness :
    (download_recommended env_ok ⟨[], []⟩).2.2.map Prod.fst =
      (available_models.filter (fun p => p.2.recommended)).map Prod.fst ∧
    ((download_recommended env_ok ⟨[], []⟩).1 = some true ↔
      ∀ p ∈ (download_recommended env_ok ⟨[], []⟩).2.2,
        p.2 = .alreadyPresent ∨ p.2 = .success) :=
  ⟨(c4_recommended_batch env_ok ⟨[], []⟩ (fun _ => rfl)).1,
   (c4_recommended_batch env_ok ⟨[], []⟩ (fun _ => rfl)).2.2.2⟩

/-- An environment where the recommended "small-hi" entry hits an
extraction failure whose cleanup deletion then fails, while the
recommended "small-en" entry would download and extract fine. -/
def env_abort : Env :=
  ⟨fun _ => .ok 0 [] false,
   fun u =>
     if u = "https://alphacephei.com/vosk/models/vosk-model-small-en-us-0.15.zip"
     then some ["vosk-model-small-en-us-0.15"] else none,
   fun z => z ≠ "vosk-model-small-hi-0.22.zip"⟩

/-- C4 counterexample: the first recommended entry's failure raises the
uncaught deletion exception, the loop aborts without any aggregate
result, and the second recommended entry -- which would have succeeded,
as running it on the resulting state shows -- is never attempted.  So a
failure of one entry can prevent later recommended entries from being
attempted. -/
theorem c4_counterexample :
    (download_recommended env_abort ⟨[], []⟩).1 = none ∧
    (download_recommended env_abort ⟨[], []⟩).2.2.map Prod.fst = ["small-hi"] ∧
    "small-en" ∈ (available_models.filter (fun p => p.2.recommended)).map Prod.fst ∧
    (download_model env_abort (download_recommended env_abort ⟨[], []⟩).2.1
      "small-en").outcome = .success := by
  decide

/-- Modelled from the spec: the fixed priority ordering for a language
preference -- the compact model of the preferred language first, then
the full model of the preferred language, then the compact and full
models of the fallback language, where the "hi" token prefers Hindi and
every other token prefers English with Hindi as fallback. -/
def spec_priority_order (pref : String) : List String :=
  let preferred_compact := if pref = "hi" then "small-hi" else "small-en"
  let preferred_full := if pref = "hi" then "hi" else "en"
  let fallback_compact := if pref = "hi" then "small-en" else "small-hi"
  let fallback_full := if pref = "hi" then "en" else "hi"
  [preferred_compact, preferred_full, fallback_compact, fallback_full]

/-- The resolution loop returns none exactly when no catalog key in the
list has its archive directory downloaded. -/
lemma get_model_path_from_eq_none (fs : FS) :
    ∀ l : List String,
      get_model_path_from fs l = none ↔
        ∀ k ∈ l, ∀ m, findModel k = some m → is_model_downloaded fs m.name = false := by
  intro l
  induction l with
  | nil => simp [get_model_path_from]
  | cons k rest ih =>
    cases hfm : findModel k with
    | none =>
      simp only [get_model_path_from, hfm, List.forall_mem_cons, ih]
      constructor
      · intro h
        exact ⟨fun m hm => Option.noConfusion hm, h⟩
      · intro h
        exact h.2
    | some m =>
      cases hd : is_model_downloaded fs m.name with
      | true =>
        simp only [get_model_path_from, hfm, hd, if_true, List.forall_mem_cons, ih]
        constructor
        · intro h
          exact Option.noConfusion h
        · intro h
          have hfalse := h.1 m rfl
          rw [hd] at hfalse
          exact Bool.noConfusion hfalse
      | false =>
        simp only [get_model_path_from, hfm, hd, Bool.false_eq_true, if_false,
          List.forall_mem_cons, ih]
        constructor
        · intro h
          refine ⟨fun m' hm' => ?_, h⟩
          rw [← Option.some.inj hm']
          exact hd
        · intro h
          exact h.2

/-- The resolution loop returns the path of the first key in the list
whose archive directory is downloaded: keys before it (absent from the
catalog or not downloaded) are skipped. -/
lemma get_model_path_from_first (fs : FS) :
    ∀ (l1 : List String) (k : String) (l2 : List String) (m : ModelInfo),
      (∀ k' ∈ l1, ∀ m', findModel k' = some m' →
        is_model_downloaded fs m'.name = false) →
      findModel k = some m → is_model_downloaded fs m.name = true →
      get_model_path_from fs (l1 ++ k :: l2) = some (models_dir ++ "/" ++ m.name) := by
  intro l1
  induction l1 with
  | nil =>
    intro k l2 m _ hk hd
    simp [get_model_path_from, hk, hd]
  | cons a rest ih =>
    intro k l2 m h hk hd
    cases hfa : findModel a with
    | none =>
      simp only [List.cons_append, get_model_path_from, hfa]
      exact ih k l2 m (fun k' hk' => h k' (List.mem_cons_of_mem a hk')) hk hd
    | some ma =>
      have hda : is_model_downloaded fs ma.name = false :=
        h a (List.mem_cons_self a rest) ma hfa
      simp only [List.cons_append, get_model_path_from, hfa, hda,
        Bool.false_eq_true, if_false]
      exact ih k l2 m (fun k' hk' => h k' (List.mem_cons_of_mem a hk')) hk hd

/-- C5: get_model_path consults exactly the fixed priority ordering the
spec describes (compact preferred, full preferred, compact fallback,
full fallback), returns the root-relative path of the first key in that
order whose archive directory is downloaded, returns none exactly when
no key in the priority list is downloaded, and in particular for the
Hindi preference it returns the compact Hindi path when only that model
and the full English model are present. -/
theorem c5_resolve_best_available :
    (∀ pref, priorities pref = spec_priority_order pref) ∧
    (∀ (fs : FS) (pref : String),
      get_model_path fs pref = none ↔
        ∀ k ∈ priorities pref, ∀ m, findModel k = some m →
          is_model_downloaded fs m.name = false) ∧
    (∀ (fs : FS) (pref : String) (l1 : List String) (k : String)
        (l2 : List String) (m : ModelInfo),
      priorities pref = l1 ++ k :: l2 →
      (∀ k' ∈ l1, ∀ m', findModel k' = some m' →
        is_model_downloaded fs m'.name = false) →
      findModel k = some m → is_model_downloaded fs m.name = true →
      get_model_path fs pref = some (models_dir ++ "/" ++ m.name)) ∧
    get_model_path ⟨["vosk-model-small-hi-0.22", "vosk-model-en-us-0.22"], []⟩ "hi" =
      some "models/vosk-model-small-hi-0.22" := by
  refine ⟨?_, ?_, ?_, by decide⟩
  · intro pref
    by_cases hp : pref = "hi"
    · simp [priorities, spec_priority_order, hp]
    · simp [priorities, spec_priority_order, hp]
  · intro fs pref
    exact get_model_path_from_eq_none fs (priorities pref)
  · intro fs pref l1 k l2 m hsplit h hk hd
    rw [get_model_path, hsplit]
    exact get_model_path_from_first fs l1 k l2 m h hk hd

theorem c5_witness :
    get_model_path ⟨[], []⟩ "hi" = none ∧
    get_model_path ⟨["vosk-model-hi-0.22"], []⟩ "hi" =
      some "models/vosk-model-hi-0.22" :=
  ⟨(c5_resolve_best_available.2.1 ⟨[], []⟩ "hi").2 (by decide),
   c5_resolve_best_available.2.2.1 ⟨["vosk-model-hi-0.22"], []⟩ "hi"
     ["small-hi"] "hi" ["small-en", "en"]
     ⟨"vosk-model-hi-0.22",
       "https://alphacephei.com/vosk/models/vosk-model-hi-0.22.zip",
       "1.8GB", "Hindi (Full)", false⟩
     (by decide) (by decide) (by decide) (by decide)⟩
/-- Bounds and strict monotonicity for the emitted progress values: over
any chunk list, every value is strictly above the value of the starting
cumulative count and at most the value of the final cumulative count,
and the sequence is strictly increasing. -/
lemma progress_steps_bounds (total_size : Nat) (ht : 0 < total_size) :
    ∀ (cs : List Nat) (d : Nat),
      (∀ q ∈ progress_steps total_size d cs,
        ((d : ℚ) / (total_size : ℚ)) * 100 < q ∧
          q ≤ (((d + cs.sum : Nat) : ℚ) / (total_size : ℚ)) * 100) ∧
      (progress_steps total_size d cs).Chain' (· < ·) := by
  have htq : (0 : ℚ) < (total_size : ℚ) := by exact_mod_cast ht
  intro cs
  induction cs with
  | nil =>
    intro d
    simp [progress_steps]
  | cons c cs ih =>
    intro d
    by_cases hc : c = 0
    · subst hc
      simpa [progress_steps] using ih d
    · have hdlt : (d : ℚ) < ((d + c : Nat) : ℚ) := by
        exact_mod_cast Nat.lt_add_of_pos_right (Nat.pos_of_ne_zero hc)
      have hv : ((d : ℚ) / (total_size : ℚ)) * 100 <
          (((d + c : Nat) : ℚ) / (total_size : ℚ)) * 100 :=
        (mul_lt_mul_right (by norm_num)).2 ((div_lt_div_iff_of_pos_right htq).2 hdlt)
      have hsteps : progress_steps total_size d (c :: cs) =
          (((d + c : Nat) : ℚ) / (total_size : ℚ)) * 100 ::
            progress_steps total_size (d + c) cs := by
        rw [progress_steps, if_neg hc, if_pos ht]
      rw [hsteps]
      obtain ⟨ihmem, ihchain⟩ := ih (d + c)
      constructor
      · intro q hq
        rcases List.mem_cons.1 hq with rfl | hq'
        · refine ⟨hv, ?_⟩
          have hle : ((d + c : Nat) : ℚ) ≤ ((d + (c :: cs).sum : Nat) : ℚ) := by
            have : d + c ≤ d + (c :: cs).sum := by
              rw [List.sum_cons]
              omega
            exact_mod_cast this
          exact (mul_le_mul_right (by norm_num)).2 ((div_le_div_iff_of_pos_right htq).2 hle)
        · obtain ⟨h1, h2⟩ := ihmem q hq'
          refine ⟨lt_trans hv h1, ?_⟩
          have heq : ((d + c) + cs.sum : Nat) = (d + (c :: cs).sum : Nat) := by
            rw [List.sum_cons]
            omega
          rw [heq] at h2
          exact h2
      · refine List.chain'_cons'.2 ⟨?_, ihchain⟩
        intro b hb
        have hbmem : b ∈ progress_steps total_size (d + c) cs :=
          List.mem_of_mem_head? hb
        exact (ihmem b hbmem).1

/-- An environment streaming a 4-byte body in two 2-byte chunks with
content length declared as 4, archives extracting to the expected
directory, deletions succeeding. -/
def env_progress : Env :=
  ⟨fun _ => .ok 4 [2, 2] false, fun _ => some ["vosk-model-small-hi-0.22"], fun _ => true⟩

/-- An environment streaming a single 2-byte chunk of a body whose
declared content length is 4. -/
def env_half : Env :=
  ⟨fun _ => .ok 4 [2] false, fun _ => some ["vosk-model-small-hi-0.22"], fun _ => true⟩

/-- C7 counterexample: downloading the compact Hindi model over a
response declaring content length 4 and delivering one 2-byte chunk
emits the value 50 -- the percentage (downloaded / total) * 100, not a
fraction in [0, 1] -- and this output is produced although no observer
callback exists or was supplied (the loop prints unconditionally). -/
theorem c7_counterexample :
    (50 : ℚ) ∈ (download_model env_half ⟨[], []⟩ "small-hi").progress ∧
    ¬ ((50 : ℚ) ≤ 1) := by
  constructor
  · have : (download_model env_half ⟨[], []⟩ "small-hi").progress =
        [((2 : ℚ) / 4) * 100] := rfl
    rw [this]
    norm_num
  · norm_num

/-- C7 (amended): while streaming a response with a positive declared
content length whose delivered bytes do not exceed it, download_model
emits a strictly increasing sequence of percentage values, each strictly
positive and at most 100.  The values are (downloaded / total) * 100 and
are printed to the console; there is no observer-callback mechanism, and
nothing is emitted when the response declares no content length. -/
theorem c7_progress_monotone_percentages (env : Env) (fs : FS) (model_key : String)
    (m : ModelInfo) (total : Nat) (chunks : List Nat) (mid : Bool)
    (hm : findModel model_key = some m)
    (hd : is_model_downloaded fs m.name = false)
    (hnet : env.net m.url = .ok total chunks mid)
    (ht : 0 < total) (hsum : chunks.sum ≤ total) :
    (download_model env fs model_key).progress = progress_steps total 0 chunks ∧
    ((download_model env fs model_key).progress).Chain' (· < ·) ∧
    ∀ q ∈ (download_model env fs model_key).progress, 0 < q ∧ q ≤ 100 := by
  have hp : (download_model env fs model_key).progress = progress_steps total 0 chunks := by
    unfold download_model
    rw [hm]
    simp only [hd, Bool.false_eq_true, if_false]
    rw [hnet]
    cases mid with
    | true => split_ifs <;> rfl
    | false =>
      simp only [Bool.false_eq_true, if_false]
      cases hext : env.extract m.url with
      | none => split_ifs <;> rfl
      | some ds => split_ifs <;> rfl
  have htq : (0 : ℚ) < (total : ℚ) := by exact_mod_cast ht
  obtain ⟨hmem, hchain⟩ := progress_steps_bounds total ht chunks 0
  refine ⟨hp, by rw [hp]; exact hchain, ?_⟩
  intro q hq
  rw [hp] at hq
  obtain ⟨h1, h2⟩ := hmem q hq
  constructor
  · simpa using h1
  · have hle1 : (((0 + chunks.sum : Nat) : ℚ) / (total : ℚ)) ≤ 1 := by
      rw [div_le_one htq]
      have hns : (0 + chunks.sum : Nat) ≤ total := by omega
      exact_mod_cast hns
    calc q ≤ (((0 + chunks.sum : Nat) : ℚ) / (total : ℚ)) * 100 := h2
      _ ≤ 1 * 100 := (mul_le_mul_right (by norm_num)).2 hle1
      _ = 100 := by norm_num

theorem c7_witness :
    ((download_model env_progress ⟨[], []⟩ "small-hi").progress).Chain' (· < ·) ∧
    ∀ q ∈ (download_model env_progress ⟨[], []⟩ "small-hi").progress,
      0 < q ∧ q ≤ 100 :=
  ⟨(c7_progress_monotone_percentages env_progress ⟨[], []⟩ "small-hi"
      ⟨"vosk-model-small-hi-0.22",
        "https://alphacephei.com/vosk/models/vosk-model-small-hi-0.22.zip",
        "45MB", "Hindi (Compact)", true⟩
      4 [2, 2] false (by decide) (by decide) rfl (by decide) (by decide)).2.1,
   (c7_progress_monotone_percentages env_progress ⟨[], []⟩ "small-hi"
      ⟨"vosk-model-small-hi-0.22",
        "https://alphacephei.com/vosk/models/vosk-model-small-hi-0.22.zip",
        "45MB", "Hindi (Compact)", true⟩
      4 [2, 2] false (by decide) (by decide) rfl (by decide) (by decide)).2.2⟩
